import Mathlib

/-!
Verification of the ReadZen page-extraction service against its source.

The embedding follows `app/models/document.py`, `app/api/endpoints/documents.py`
and `app/services/ocr/service.py`.  Machine text is modelled over `List Char`
(ASCII fragment), page geometry over `ℚ`, the JSON page mapping as an
insertion-ordered association list, and fallible calls as `Except`.
-/

namespace ReadZen

/-- `ProcessingStatus` from `app/models/document.py`. -/
inductive ProcessingStatus where
  | pending
  | processing
  | completed
  | failed
deriving DecidableEq

/-- The string stored in the `status` column for each status value. -/
def ProcessingStatus.value : ProcessingStatus → String
  | .pending => "pending"
  | .processing => "processing"
  | .completed => "completed"
  | .failed => "failed"

/-- The `Document` row (`app/models/document.py`): the fields the endpoints
read and write.  `extracted_pages` is the JSON object mapping `str(i)` to the
extracted HTML of page `i`, modelled as an insertion-ordered association
list; the column default is the empty dict. -/
structure Document where
  filename : String
  status : ProcessingStatus
  file_path : String
  extracted_text : Option String := none
  extracted_pages : List (String × String) := []
  page_count : Option Nat := none
  summary : Option String := none
deriving DecidableEq

/-- The OCR provider surface as the endpoints use it.  `OCRProvider` and its
only concrete class `PyMuPDF4LLMService` (`service.py`) define just
`extract_text`; the endpoints additionally fetch the attributes
`get_page_count` and `extract_page`.  An attribute is modelled as an
`Option`-al method: `none` means the attribute does not exist on the object,
so invoking it raises `AttributeError`. -/
structure OCRService where
  implements_extract_text : Bool
  get_page_count? : Option (String → Except String Nat)
  extract_page? : Option (String → Int → Except String String)

def attributeErrorPageCount : String :=
  "AttributeError: PyMuPDF4LLMService object has no attribute get_page_count"

def attributeErrorExtractPage : String :=
  "AttributeError: PyMuPDF4LLMService object has no attribute extract_page"

/-- Invoke `ocr_service.get_page_count(file_path)`. -/
def OCRService.callGetPageCount (svc : OCRService) (file_path : String) :
    Except String Nat :=
  match svc.get_page_count? with
  | none => .error attributeErrorPageCount
  | some f => f file_path

/-- Invoke `ocr_service.extract_page(file_path, page_number)`. -/
def OCRService.callExtractPage (svc : OCRService) (file_path : String)
    (page_number : Int) : Except String String :=
  match svc.extract_page? with
  | none => .error attributeErrorExtractPage
  | some f => f file_path page_number

/-- `get_ocr_service` (`service.py`, line 332): returns a fresh
`PyMuPDF4LLMService`, whose class body defines only `extract_text`. -/
def get_ocr_service : OCRService :=
  { implements_extract_text := true
    get_page_count? := none
    extract_page? := none }

/-- Result of one run of the background job `process_document`
(`documents.py`, lines 16-60): the final committed row, the status value at
each `session.commit()` inside the `try`/`except` body, in order, and the
OCR operations dispatched to the executor, in order. -/
structure ProcessResult where
  doc : Document
  commits : List ProcessingStatus
  ocr_calls : List String
deriving DecidableEq

/-- `process_document` (`documents.py`, lines 16-60).  The row is set to
`PROCESSING` and committed; then the page-count probe runs; on success
`page_count` and an empty page mapping are assigned, page 0 is extracted,
and on success the mapping `{"0": html}`, the legacy `extracted_text` and
status `COMPLETED` are committed.  Any exception lands in the `except`
block, which sets status `FAILED` and commits everything assigned so far. -/
def process_document (svc : OCRService) (doc0 : Document) (file_path : String) :
    ProcessResult :=
  let doc1 := { doc0 with status := .processing }
  match svc.callGetPageCount file_path with
  | .error _ =>
    { doc := { doc1 with status := .failed }
      commits := [.processing, .failed]
      ocr_calls := ["get_page_count"] }
  | .ok page_count =>
    let doc2 := { doc1 with page_count := some page_count, extracted_pages := [] }
    match svc.callExtractPage file_path 0 with
    | .error _ =>
      { doc := { doc2 with status := .failed }
        commits := [.processing, .failed]
        ocr_calls := ["get_page_count", "extract_page"] }
    | .ok first_page_html =>
      { doc := { doc2 with
                  extracted_pages := [("0", first_page_html)]
                  extracted_text := some first_page_html
                  status := .completed }
        commits := [.processing, .completed]
        ocr_calls := ["get_page_count", "extract_page"] }

/-- The document row created by the success path of `upload_document`
(`documents.py`, lines 62-92): status `PENDING`, no page data, column
defaults everywhere else. -/
def upload_document (filename : String) (file_path : String) : Document :=
  { filename := filename, status := .pending, file_path := file_path }

/-- Python `dict.get` on the page mapping. -/
def pagesGet (pages : List (String × String)) (key : String) : Option String :=
  (pages.find? (fun p => p.1 == key)).map (fun p => p.2)

/-- Python `dict` assignment `pages[key] = value` (updates in place, keeps
insertion order, appends a fresh key at the end). -/
def pagesSet (pages : List (String × String)) (key value : String) :
    List (String × String) :=
  match pages with
  | [] => [(key, value)]
  | (k, v) :: rest =>
    if k == key then (k, value) :: rest else (k, v) :: pagesSet rest key value

/-- The JSON body or HTTP error produced by the single-page endpoint. -/
inductive PageResult where
  | page (page_number : Int) (content : String) (cached : Bool)
  | httpError (code : Nat) (detail : String)
deriving DecidableEq

/-- Result of one `get_page` request: the response, the resulting document
row, and the OCR operations dispatched. -/
structure PageRequestResult where
  response : PageResult
  document : Document
  ocr_calls : List String
deriving DecidableEq

/-- Python `(document.page_count or 1)`: `None` and `0` are falsy. -/
def page_count_or_1 (document : Document) : Nat :=
  match document.page_count with
  | none => 1
  | some n => if n == 0 then 1 else n

/-- `get_page` (`documents.py`, lines 151-198).  Checks status, then the
index range, then the page mapping; a cache hit returns `cached=True` with
no extraction; otherwise `extract_page` is dispatched and, on success, the
result is stored under `str(page_number)` and returned with `cached=False`;
on failure a 500 error is returned and the mapping is left unchanged.  When
the range check trips with `page_count = None`, building the error detail
evaluates `None - 1`, a `TypeError`, surfaced as a 500. -/
def get_page (svc : OCRService) (document : Document) (page_number : Int) :
    PageRequestResult :=
  if document.status ≠ .completed then
    { response := .httpError 400
        ("Document is not ready. Status: " ++ document.status.value)
      document := document
      ocr_calls := [] }
  else if page_number < 0 ∨ page_number ≥ (page_count_or_1 document : Int) then
    match document.page_count with
    | some n =>
      { response := .httpError 400
          ("Invalid page number. Document has " ++ toString n ++
            " pages (0-" ++ toString ((n : Int) - 1) ++ ")")
        document := document
        ocr_calls := [] }
    | none =>
      { response := .httpError 500 "TypeError", document := document, ocr_calls := [] }
  else
    match pagesGet document.extracted_pages (toString page_number) with
    | some content =>
      { response := .page page_number content true
        document := document
        ocr_calls := [] }
    | none =>
      match svc.callExtractPage document.file_path page_number with
      | .ok page_html =>
        { response := .page page_number page_html false
          document := { document with
                          extracted_pages :=
                            pagesSet document.extracted_pages
                              (toString page_number) page_html }
          ocr_calls := ["extract_page"] }
      | .error e =>
        { response := .httpError 500 ("Failed to extract page: " ++ e)
          document := document
          ocr_calls := ["extract_page"] }

/-- `True` exactly on the `error` constructor. -/
def exceptIsError {α β : Type} : Except α β → Bool
  | .error _ => true
  | .ok _ => false

/-- A completed document whose page 0 is cached and page 1 is not. -/
def completedTwoPageDoc : Document :=
  { filename := "a.pdf"
    status := .completed
    file_path := "uploads/1_a.pdf"
    extracted_text := some "<p>x</p>"
    extracted_pages := [("0", "<p>x</p>")]
    page_count := some 2 }

/-- C1: the provider returned by `get_ocr_service` implements only
`extract_text`; `get_page_count` and `extract_page` are not defined on it.
Hence every run of the background job ends with status `Failed` (the
success branch is unreachable), and every lazy request for an in-range,
uncached page index takes the error branch. -/
theorem C1_provider_lacks_page_methods :
    get_ocr_service.implements_extract_text = true ∧
    get_ocr_service.get_page_count? = none ∧
    get_ocr_service.extract_page? = none ∧
    (∀ doc file_path,
      (process_document get_ocr_service doc file_path).doc.status = .failed ∧
      (process_document get_ocr_service doc file_path).commits =
        [.processing, .failed]) ∧
    (∀ doc page_number, doc.status = .completed →
      ¬(page_number < 0 ∨ page_number ≥ (page_count_or_1 doc : Int)) →
      pagesGet doc.extracted_pages (toString page_number) = none →
      (get_page get_ocr_service doc page_number).response =
        .httpError 500 ("Failed to extract page: " ++ attributeErrorExtractPage)) := by
  refine ⟨rfl, rfl, rfl, fun doc file_path => ⟨rfl, rfl⟩, ?_⟩
  intro doc page_number hst hrange hmiss
  unfold get_page
  rw [if_neg (by simp [hst]), if_neg hrange, hmiss]
  rfl

/-- Witness for C1's quantified parts on a concrete document. -/
theorem C1_provider_lacks_page_methods_witness :
    (get_page get_ocr_service completedTwoPageDoc 1).response =
      .httpError 500 ("Failed to extract page: " ++ attributeErrorExtractPage) :=
  C1_provider_lacks_page_methods.2.2.2.2 completedTwoPageDoc 1 (by decide)
    (by decide) (by decide)

/-- C2 (code evaluation at the failing input): for a completed two-page
document whose page 1 is uncached, the first `get_page` call does not
return `cached=false` with content; it takes the error branch with the
`AttributeError` from the missing `extract_page`, and caches nothing. -/
theorem C2_first_uncached_call_errors :
    (get_page get_ocr_service completedTwoPageDoc 1).response =
      .httpError 500 ("Failed to extract page: " ++ attributeErrorExtractPage) ∧
    (get_page get_ocr_service completedTwoPageDoc 1).document =
      completedTwoPageDoc ∧
    (∀ content,
      (get_page get_ocr_service completedTwoPageDoc 1).response ≠
        .page 1 content false) := by
  refine ⟨by decide, by decide, ?_⟩
  intro content h
  have h2 :
      (get_page get_ocr_service completedTwoPageDoc 1).response =
        .httpError 500 ("Failed to extract page: " ++ attributeErrorExtractPage) := by
    decide
  rw [h2] at h
  exact PageResult.noConfusion h

/-- C3: a document is created `Pending` at upload; one run of the
background job commits exactly `Processing` followed by one terminal
status (`Completed` or `Failed`), so the lifetime status sequence is
`[Pending, Processing, Completed]` or `[Pending, Processing, Failed]`;
and a lazy page request never changes the status. -/
theorem C3_status_lifecycle :
    (∀ filename file_path,
      (upload_document filename file_path).status = .pending) ∧
    (∀ svc doc file_path,
      ProcessingStatus.pending :: (process_document svc doc file_path).commits =
        [.pending, .processing, .completed] ∨
      ProcessingStatus.pending :: (process_document svc doc file_path).commits =
        [.pending, .processing, .failed]) ∧
    (∀ svc doc page_number,
      (get_page svc doc page_number).document.status = doc.status) := by
  refine ⟨fun _ _ => rfl, ?_, ?_⟩
  · intro svc doc file_path
    unfold process_document
    rcases svc.callGetPageCount file_path with e | n
    · exact Or.inr rfl
    · rcases svc.callExtractPage file_path 0 with e | html
      · exact Or.inr rfl
      · exact Or.inl rfl
  · intro svc doc page_number
    unfold get_page
    split
    · rfl
    · split
      · split <;> rfl
      · split
        · rfl
        · split <;> rfl

/-- C4: if any step of the initial run fails (the page-count probe or the
page-0 extraction), the document from a fresh upload ends `Failed`, carries
no page-mapping entries and no page content, the job commits nothing after
the failure, and neither OCR operation is attempted more than once. -/
theorem C4_failure_leaves_no_partial_data (svc : OCRService)
    (filename file_path : String)
    (h : exceptIsError (svc.callGetPageCount file_path) = true ∨
         exceptIsError (svc.callExtractPage file_path 0) = true) :
    (process_document svc (upload_document filename file_path) file_path).doc.status
      = .failed ∧
    (process_document svc (upload_document filename file_path)
        file_path).doc.extracted_pages = [] ∧
    (process_document svc (upload_document filename file_path)
        file_path).doc.extracted_text = none ∧
    (process_document svc (upload_document filename file_path) file_path).commits
      = [.processing, .failed] ∧
    (process_document svc (upload_document filename file_path)
        file_path).ocr_calls.count "get_page_count" ≤ 1 ∧
    (process_document svc (upload_document filename file_path)
        file_path).ocr_calls.count "extract_page" ≤ 1 := by
  unfold process_document
  rcases hpc : svc.callGetPageCount file_path with e | n
  · exact ⟨rfl, rfl, rfl, rfl,
      show List.count "get_page_count" ["get_page_count"] ≤ 1 by decide,
      show List.count "extract_page" ["get_page_count"] ≤ 1 by decide⟩
  · rcases hep : svc.callExtractPage file_path 0 with e | html
    · exact ⟨rfl, rfl, rfl, rfl,
        show List.count "get_page_count" ["get_page_count", "extract_page"] ≤ 1 by
          decide,
        show List.count "extract_page" ["get_page_count", "extract_page"] ≤ 1 by
          decide⟩
    · exfalso
      rw [hpc, hep] at h
      simp [exceptIsError] at h

/-- Witness for C4 with the concrete provider, whose probe fails. -/
theorem C4_failure_leaves_no_partial_data_witness :
    (process_document get_ocr_service (upload_document "a.pdf" "p") "p").doc.status
      = .failed ∧
    (process_document get_ocr_service (upload_document "a.pdf" "p")
        "p").doc.extracted_pages = [] ∧
    (process_document get_ocr_service (upload_document "a.pdf" "p")
        "p").doc.extracted_text = none ∧
    (process_document get_ocr_service (upload_document "a.pdf" "p") "p").commits
      = [.processing, .failed] ∧
    (process_document get_ocr_service (upload_document "a.pdf" "p")
        "p").ocr_calls.count "get_page_count" ≤ 1 ∧
    (process_document get_ocr_service (upload_document "a.pdf" "p")
        "p").ocr_calls.count "extract_page" ≤ 1 :=
  C4_failure_leaves_no_partial_data get_ocr_service "a.pdf" "p"
    (Or.inl (by decide))

/-- C5: on a completed document with `page_count = n ≥ 1`, requesting index
`n` (one past the end) or any negative index yields the 400 out-of-range
error whose detail carries the valid range `0` to `n-1`; no extraction is
dispatched and the document (in particular its page mapping) is unchanged. -/
theorem C5_out_of_range_rejected (svc : OCRService) (doc : Document) (n : Nat)
    (idx : Int) (hst : doc.status = .completed) (hpc : doc.page_count = some n)
    (hn : 1 ≤ n) (hidx : idx = (n : Int) ∨ idx < 0) :
    (get_page svc doc idx).response =
      .httpError 400 ("Invalid page number. Document has " ++ toString n ++
        " pages (0-" ++ toString ((n : Int) - 1) ++ ")") ∧
    (get_page svc doc idx).document = doc ∧
    (get_page svc doc idx).ocr_calls = [] := by
  have hor : page_count_or_1 doc = n := by
    unfold page_count_or_1
    rw [hpc]
    simp
    omega
  have hrange : idx < 0 ∨ idx ≥ (page_count_or_1 doc : Int) := by
    rw [hor]
    rcases hidx with h | h
    · exact Or.inr (le_of_eq h.symm)
    · exact Or.inl h
  unfold get_page
  rw [if_neg (by simp [hst]), if_pos hrange, hpc]
  exact ⟨rfl, rfl, rfl⟩

/-- Witness for C5: index 2 on a completed 2-page document. -/
theorem C5_out_of_range_rejected_witness :
    (get_page get_ocr_service completedTwoPageDoc 2).response =
      .httpError 400 ("Invalid page number. Document has " ++ toString 2 ++
        " pages (0-" ++ toString ((2 : Int) - 1) ++ ")") ∧
    (get_page get_ocr_service completedTwoPageDoc 2).document =
      completedTwoPageDoc ∧
    (get_page get_ocr_service completedTwoPageDoc 2).ocr_calls = [] :=
  C5_out_of_range_rejected get_ocr_service completedTwoPageDoc 2 2 (by decide)
    (by decide) (by decide) (Or.inl (by decide))

/-! ### Text primitives (ASCII fragment of the Python string operations) -/

/-- Python whitespace (`str.strip`, regex `\s`), ASCII fragment. -/
def pyIsSpace (c : Char) : Bool :=
  c == ' ' || c == '\t' || c == '\n' || c == '\r' || c == '\x0b' || c == '\x0c'

/-- Drop trailing whitespace. -/
def dropTrailingSpace (l : List Char) : List Char :=
  (l.reverse.dropWhile pyIsSpace).reverse

/-- Python `str.strip()`. -/
def pyStrip (l : List Char) : List Char :=
  dropTrailingSpace (l.dropWhile pyIsSpace)

/-- Python `str.isdigit()` (ASCII): nonempty and all digits. -/
def pyIsDigitStr (l : List Char) : Bool :=
  !l.isEmpty && l.all Char.isDigit

/-- ASCII letter (what `[A-Z]` matches under `re.IGNORECASE`). -/
def isAsciiLetter (c : Char) : Bool :=
  ('A' ≤ c && c ≤ 'Z') || ('a' ≤ c && c ≤ 'z')

/-- Case-insensitive literal-prefix test. -/
def startsWithCI : List Char → List Char → Bool
  | [], _ => true
  | _ :: _, [] => false
  | p :: ps, c :: cs => (p.toLower == c.toLower) && startsWithCI ps cs

/-- `re.search` driver: try the anchored matcher at every start position. -/
def searchAny (f : List Char → Bool) : List Char → Bool
  | [] => f []
  | c :: cs => f (c :: cs) || searchAny f cs

/-! ### `HEADER_FOOTER_PATTERNS` (`service.py`, lines 31-53)

Each compiled regex (searched with `re.IGNORECASE`) is hand-compiled to an
executable matcher.  All the character classes that carry a `*`/`+`/`{n,m}`
in these patterns are disjoint from the element that follows them, so a
maximal-munch translation (with explicit one-step backtracking for
`\d{1,2}`) has the same search semantics. -/

/-- `^\s*\d+\s*$`. -/
def patBareNumber (s : List Char) : Bool :=
  let t := s.dropWhile pyIsSpace
  let ds := t.takeWhile Char.isDigit
  !ds.isEmpty && (t.drop ds.length).all pyIsSpace

/-- `^\s*-\s*\d+\s*-\s*$`. -/
def patDashedNumber (s : List Char) : Bool :=
  match s.dropWhile pyIsSpace with
  | '-' :: r =>
    let r1 := r.dropWhile pyIsSpace
    let ds := r1.takeWhile Char.isDigit
    !ds.isEmpty &&
      (match (r1.drop ds.length).dropWhile pyIsSpace with
       | '-' :: r2 => r2.all pyIsSpace
       | _ => false)
  | _ => false

/-- `^\s*Page\s+\d+\s*$` (case-insensitive). -/
def patPageN (s : List Char) : Bool :=
  let t := s.dropWhile pyIsSpace
  startsWithCI "Page".data t &&
    (let r := t.drop 4
     let sp := r.takeWhile pyIsSpace
     !sp.isEmpty &&
       (let r2 := r.drop sp.length
        let ds := r2.takeWhile Char.isDigit
        !ds.isEmpty && (r2.drop ds.length).all pyIsSpace))

/-- `©\s*\d{4}` (searched anywhere). -/
def patCopyrightYear (s : List Char) : Bool :=
  searchAny
    (fun t =>
      match t with
      | '©' :: r => decide (((r.dropWhile pyIsSpace).takeWhile Char.isDigit).length ≥ 4)
      | _ => false) s

/-- `https?://doi\.org/` (searched anywhere, case-insensitive). -/
def patDoiUrl (s : List Char) : Bool :=
  searchAny
    (fun t =>
      startsWithCI "http://doi.org/".data t ||
      startsWithCI "https://doi.org/".data t) s

/-- `ACM\s+ISBN` (searched anywhere, case-insensitive). -/
def patAcmIsbn (s : List Char) : Bool :=
  searchAny
    (fun t =>
      startsWithCI "ACM".data t &&
        (let r := t.drop 3
         let sp := r.takeWhile pyIsSpace
         !sp.isEmpty && startsWithCI "ISBN".data (r.drop sp.length))) s

/-- `n` digit runs separated by single dashes: `\d+(-\d+){n-1}`. -/
def digitRunsSepDash : Nat → List Char → Bool
  | 0, _ => true
  | 1, r => !(r.takeWhile Char.isDigit).isEmpty
  | n + 2, r =>
    let ds := r.takeWhile Char.isDigit
    !ds.isEmpty &&
      (match r.drop ds.length with
       | '-' :: r2 => digitRunsSepDash (n + 1) r2
       | _ => false)

/-- `978-\d+-\d+-\d+-\d+` (searched anywhere). -/
def patIsbn978 (s : List Char) : Bool :=
  searchAny
    (fun t => "978-".data.isPrefixOf t && digitRunsSepDash 4 (t.drop 4)) s

/-- `979-\d+-\d+-\d+-\d+` (searched anywhere). -/
def patIsbn979 (s : List Char) : Bool :=
  searchAny
    (fun t => "979-".data.isPrefixOf t && digitRunsSepDash 4 (t.drop 4)) s

/-- The month-name alternatives in the conference-header pattern. -/
def monthNames : List (List Char) :=
  ["January".data, "February".data, "March".data, "April".data, "May".data,
   "June".data, "July".data, "August".data, "September".data, "October".data,
   "November".data, "December".data]

/-- `[-–]`: ASCII hyphen or en dash. -/
def isDashChar (c : Char) : Bool :=
  c == '-' || c == '–'

/-- Trailing `\d{1,2}[-–]\d{1,2}` (greedy with backtracking on the first
quantifier). -/
def dayRange (r : List Char) : Bool :=
  match r with
  | a :: b :: c :: rest =>
    (a.isDigit && b.isDigit && isDashChar c &&
      (match rest with
       | d :: _ => d.isDigit
       | [] => false)) ||
    (a.isDigit && isDashChar b && c.isDigit)
  | _ => false

/-- `^[A-Z]{2,}['\s]\d{2},?\s*(January|...|December|\d{1,2}[-–]\d{1,2})`
(case-insensitive). -/
def patConfHeader (s : List Char) : Bool :=
  let ls := s.takeWhile isAsciiLetter
  decide (2 ≤ ls.length) &&
    (match s.drop ls.length with
     | c :: r =>
       (c == '\x27' || pyIsSpace c) &&
         (match r with
          | d1 :: d2 :: r2 =>
            d1.isDigit && d2.isDigit &&
              (let r3 := match r2 with
                         | ',' :: rr => rr
                         | _ => r2
               let r4 := r3.dropWhile pyIsSpace
               monthNames.any (fun m => startsWithCI m r4) || dayRange r4)
          | _ => false)
     | [] => false)

/-- Consume `\d{1,2}` followed by a dash, returning the rest. -/
def parseDigits12Dash (r : List Char) : Option (List Char) :=
  match r with
  | a :: b :: c :: rest =>
    if a.isDigit && b.isDigit && isDashChar c then some rest
    else if a.isDigit && isDashChar b then some (c :: rest)
    else none
  | [a, b] => if a.isDigit && isDashChar b then some [] else none
  | _ => none

/-- Consume `\d{1,2}` followed by a comma, returning the rest. -/
def parseDigits12Comma (r : List Char) : Option (List Char) :=
  match r with
  | a :: b :: c :: rest =>
    if a.isDigit && b.isDigit && c == ',' then some rest
    else if a.isDigit && b == ',' then some (c :: rest)
    else none
  | [a, b] => if a.isDigit && b == ',' then some [] else none
  | _ => none

/-- `^\s*[A-Z][a-z]+\s+\d{1,2}[-–]\d{1,2},\s*\d{4}` (case-insensitive, so
both letter classes match any ASCII letter). -/
def patDatePlace (s : List Char) : Bool :=
  match s.dropWhile pyIsSpace with
  | c :: r =>
    isAsciiLetter c &&
      (let ls := r.takeWhile isAsciiLetter
       !ls.isEmpty &&
         (let r2 := r.drop ls.length
          let sp := r2.takeWhile pyIsSpace
          !sp.isEmpty &&
            (match parseDigits12Dash (r2.drop sp.length) with
             | some r3 =>
               match parseDigits12Comma r3 with
               | some r4 =>
                 decide (((r4.dropWhile pyIsSpace).takeWhile Char.isDigit).length ≥ 4)
               | none => false
             | none => false)))
  | [] => false

/-- `\s*\d+` continuation shared by the volume/number/ISSN patterns. -/
def spacesThenDigit (t : List Char) : Bool :=
  !(((t.dropWhile pyIsSpace).takeWhile Char.isDigit).isEmpty)

/-- `^(Vol\.|Volume)\s*\d+` (case-insensitive). -/
def patVolume (s : List Char) : Bool :=
  (startsWithCI "Vol.".data s && spacesThenDigit (s.drop 4)) ||
  (startsWithCI "Volume".data s && spacesThenDigit (s.drop 6))

/-- `^(No\.|Number)\s*\d+` (case-insensitive). -/
def patNumberN (s : List Char) : Bool :=
  (startsWithCI "No.".data s && spacesThenDigit (s.drop 3)) ||
  (startsWithCI "Number".data s && spacesThenDigit (s.drop 6))

/-- `^\s*ISSN\s*\d` (case-insensitive). -/
def patIssn (s : List Char) : Bool :=
  let t := s.dropWhile pyIsSpace
  startsWithCI "ISSN".data t && spacesThenDigit (t.drop 4)

/-- Words separated by `\s+`, anchored at the start (case-insensitive). -/
def wordsSeqCI : List (List Char) → List Char → Bool
  | [], _ => true
  | [w], t => startsWithCI w t
  | w :: w2 :: ws, t =>
    startsWithCI w t &&
      (let r := t.drop w.length
       let sp := r.takeWhile pyIsSpace
       !sp.isEmpty && wordsSeqCI (w2 :: ws) (r.drop sp.length))

/-- `^Copyright\s+held\s+by` (case-insensitive). -/
def patCopyrightHeld (s : List Char) : Bool :=
  wordsSeqCI ["Copyright".data, "held".data, "by".data] s

/-- `^Permission\s+to\s+make` (case-insensitive). -/
def patPermissionToMake (s : List Char) : Bool :=
  wordsSeqCI ["Permission".data, "to".data, "make".data] s

/-- `^This\s+work\s+is\s+licensed` (case-insensitive). -/
def patWorkLicensed (s : List Char) : Bool :=
  wordsSeqCI ["This".data, "work".data, "is".data, "licensed".data] s

/-- The fixed pattern list `HEADER_FOOTER_PATTERNS`, in source order. -/
def headerFooterPatterns : List (List Char → Bool) :=
  [patBareNumber, patDashedNumber, patPageN,
   patCopyrightYear, patDoiUrl, patAcmIsbn, patIsbn978, patIsbn979,
   patConfHeader, patDatePlace,
   patVolume, patNumberN, patIssn,
   patCopyrightHeld, patPermissionToMake, patWorkLicensed]

/-- `any(regex.search(text_clean) for regex in self.header_footer_regexes)`. -/
def headerFooterAnyMatch (s : List Char) : Bool :=
  headerFooterPatterns.any (fun p => p s)

/-- Bounding box `(x0, y0, x1, y1)` in page coordinates. -/
structure BBox where
  x0 : ℚ
  y0 : ℚ
  x1 : ℚ
  y1 : ℚ
deriving DecidableEq

/-- `_is_header_or_footer` (`service.py`, lines 99-136).  The Python local
`text_clean = text.strip()` is inlined as `pyStrip text`; the zone tests
read `block_bbox[1]` and `block_bbox[3]`, i.e. `y0` and `y1`. -/
def is_header_or_footer (text : List Char) (block_bbox : BBox)
    (page_height : ℚ) : Bool :=
  if (pyStrip text).isEmpty then true
  else if (decide (block_bbox.y0 < page_height * (8 / 100)) ||
           decide (block_bbox.y1 > page_height * (90 / 100))) &&
          decide ((pyStrip text).length < 100) &&
          (headerFooterAnyMatch (pyStrip text) || pyIsDigitStr (pyStrip text)) then
    true
  else if headerFooterAnyMatch (pyStrip text) &&
          decide ((pyStrip text).length < 150) then
    true
  else
    false

/-- C6: the classifier declares a block boilerplate exactly when (1) its
text is empty or whitespace-only, or (2) its vertical extent touches the
top-8% header zone or bottom-10% footer zone while the stripped text is
shorter than 100 characters and matches one of the fixed patterns or is
purely numeric, or (3) independent of zone, the stripped text is shorter
than 150 characters and matches one of the fixed patterns; otherwise it is
content. -/
theorem C6_boilerplate_policy (text : List Char) (bbox : BBox) (h : ℚ) :
    is_header_or_footer text bbox h = true ↔
      (pyStrip text = [] ∨
       ((bbox.y0 < h * (8 / 100) ∨ bbox.y1 > h * (90 / 100)) ∧
         (pyStrip text).length < 100 ∧
         (headerFooterAnyMatch (pyStrip text) = true ∨
          pyIsDigitStr (pyStrip text) = true)) ∨
       ((pyStrip text).length < 150 ∧
        headerFooterAnyMatch (pyStrip text) = true)) := by
  unfold is_header_or_footer
  split_ifs with h1 h2 h3
  · rw [List.isEmpty_iff] at h1
    exact iff_of_true rfl (Or.inl h1)
  · simp only [Bool.and_eq_true, Bool.or_eq_true, decide_eq_true_eq] at h2
    exact iff_of_true rfl (Or.inr (Or.inl ⟨h2.1.1, h2.1.2, h2.2⟩))
  · simp only [Bool.and_eq_true, decide_eq_true_eq] at h3
    exact iff_of_true rfl (Or.inr (Or.inr ⟨h3.2, h3.1⟩))
  · apply iff_of_false (by simp)
    rintro (hA | hB | hC)
    · exact h1 (List.isEmpty_iff.mpr hA)
    · apply h2
      simp only [Bool.and_eq_true, Bool.or_eq_true, decide_eq_true_eq]
      exact ⟨⟨hB.1, hB.2.1⟩, hB.2.2⟩
    · apply h3
      simp only [Bool.and_eq_true, decide_eq_true_eq]
      exact ⟨hC.2, hC.1⟩

/-- C7, counterexample to the second half of the claim: the block whose
text is exactly `"12"` positioned at page mid-height (bbox
`(100, 490, 200, 510)` on a page of height 1000, outside both zones) is
still classified boilerplate, because `"12"` matches the bare-page-number
pattern `^\s*\d+\s*$`, which rule (3) applies regardless of zone to any
text shorter than 150 characters.  The claim says this block is content. -/
theorem C7_counterexample_midheight :
    is_header_or_footer "12".data ⟨100, 490, 200, 510⟩ 1000 = true := by
  unfold is_header_or_footer
  split_ifs with h1 h2 h3
  · rfl
  · rfl
  · rfl
  · exact absurd
      (show headerFooterAnyMatch (pyStrip "12".data) &&
          decide ((pyStrip "12".data).length < 150) = true by decide) h3

/-- C7 as amended: a block whose text is exactly `"12"` is classified
boilerplate at every position — in particular when `y1 > 0.92 *
page_height`, and also at page mid-height — since the bare-page-number
pattern matches it and applies regardless of zone below 150 characters. -/
theorem C7_amended_page_number_always_boilerplate (b : BBox) (h : ℚ) :
    is_header_or_footer "12".data b h = true := by
  unfold is_header_or_footer
  split_ifs with h1 h2 h3
  · rfl
  · rfl
  · rfl
  · exact absurd
      (show headerFooterAnyMatch (pyStrip "12".data) &&
          decide ((pyStrip "12".data).length < 150) = true by decide) h3

/-! ### Alignment detector -/

/-- The four alignment values `_detect_alignment` can return. -/
inductive Alignment where
  | left
  | center
  | right
  | justify
deriving DecidableEq

/-- `_detect_alignment` (`service.py`, lines 270-299).  `block_center =
(x0 + x1) / 2`, `left_margin = page_width * 0.1`, `right_margin =
page_width * 0.9`; the nested center test (`if abs(...) < tol: if x0 >
left_margin and x1 < right_margin: return "center"`) falls through to the
later tests when either part fails, so it is one conjunction here. -/
def detect_alignment (block_bbox : BBox) (page_width page_center : ℚ) :
    Alignment :=
  if |(block_bbox.x0 + block_bbox.x1) / 2 - page_center| < page_width * (5 / 100) ∧
     block_bbox.x0 > page_width * (1 / 10) ∧ block_bbox.x1 < page_width * (9 / 10)
  then .center
  else if block_bbox.x1 > page_width * (9 / 10) - 10 ∧ block_bbox.x0 > page_center
  then .right
  else if block_bbox.x0 < page_width * (1 / 10) + 20 ∧
          block_bbox.x1 > page_width * (9 / 10) - 20
  then .justify
  else .left

/-- Claim C8's first rule: block center within 5% of page width of the page
center, and both edges inside the 10%-90% margin band. -/
def centeredCond (b : BBox) (W c : ℚ) : Prop :=
  |(b.x0 + b.x1) / 2 - c| < W * (5 / 100) ∧
  b.x0 > W * (1 / 10) ∧ b.x1 < W * (9 / 10)

/-- Claim C8's second rule: the right edge reaches within 10px of the 90%
margin (it extends past `0.9*W - 10`; the code places no upper bound, i.e.
an edge inside the margin region also counts) and the block starts past
the page center. -/
def rightCond (b : BBox) (W c : ℚ) : Prop :=
  b.x1 > W * (9 / 10) - 10 ∧ b.x0 > c

/-- Claim C8's third rule: the block spans both margins (left edge before
left margin + 20px, right edge after right margin - 20px). -/
def justifyCond (b : BBox) (W : ℚ) : Prop :=
  b.x0 < W * (1 / 10) + 20 ∧ b.x1 > W * (9 / 10) - 20

/-- C8: the detector realises exactly the claimed precedence — `center`
iff the centering rule holds; `right` iff centering fails and the right
rule holds; `justify` iff both fail and the spanning rule holds; `left`
iff all three fail.  On a page of width `W > 0` (page center `W/2`), the
block `x0 = 0.3*W, x1 = 0.7*W` is `center` and the block `x0 = 0.05*W,
x1 = 0.95*W` is `justify`. -/
theorem C8_alignment_precedence :
    (∀ (b : BBox) (W c : ℚ),
      detect_alignment b W c = .center ↔ centeredCond b W c) ∧
    (∀ (b : BBox) (W c : ℚ),
      detect_alignment b W c = .right ↔
        ¬centeredCond b W c ∧ rightCond b W c) ∧
    (∀ (b : BBox) (W c : ℚ),
      detect_alignment b W c = .justify ↔
        ¬centeredCond b W c ∧ ¬rightCond b W c ∧ justifyCond b W) ∧
    (∀ (b : BBox) (W c : ℚ),
      detect_alignment b W c = .left ↔
        ¬centeredCond b W c ∧ ¬rightCond b W c ∧ ¬justifyCond b W) ∧
    (∀ W y0 y1 : ℚ, 0 < W →
      detect_alignment ⟨3 * W / 10, y0, 7 * W / 10, y1⟩ W (W / 2) = .center) ∧
    (∀ W y0 y1 : ℚ, 0 < W →
      detect_alignment ⟨W / 20, y0, 19 * W / 20, y1⟩ W (W / 2) = .justify) := by
  have hchar : ∀ (b : BBox) (W c : ℚ),
      (detect_alignment b W c = .center ↔ centeredCond b W c) ∧
      (detect_alignment b W c = .right ↔
        ¬centeredCond b W c ∧ rightCond b W c) ∧
      (detect_alignment b W c = .justify ↔
        ¬centeredCond b W c ∧ ¬rightCond b W c ∧ justifyCond b W) ∧
      (detect_alignment b W c = .left ↔
        ¬centeredCond b W c ∧ ¬rightCond b W c ∧ ¬justifyCond b W) := by
    intro b W c
    unfold detect_alignment centeredCond rightCond justifyCond
    split_ifs with hc hr hj <;>
      refine ⟨?_, ?_, ?_, ?_⟩ <;>
      simp_all
  refine ⟨fun b W c => (hchar b W c).1, fun b W c => (hchar b W c).2.1,
    fun b W c => (hchar b W c).2.2.1, fun b W c => (hchar b W c).2.2.2,
    ?_, ?_⟩
  · intro W y0 y1 hW
    apply (hchar _ _ _).1.mpr
    refine ⟨?_, ?_, ?_⟩
    · have e : (3 * W / 10 + 7 * W / 10) / 2 - W / 2 = 0 := by ring
      show |(3 * W / 10 + 7 * W / 10) / 2 - W / 2| < W * (5 / 100)
      rw [e, abs_zero]
      linarith
    · show (3 * W / 10 : ℚ) > W * (1 / 10)
      linarith
    · show (7 * W / 10 : ℚ) < W * (9 / 10)
      linarith
  · intro W y0 y1 hW
    apply (hchar _ _ _).2.2.1.mpr
    refine ⟨?_, ?_, ?_, ?_⟩
    · intro hcen
      have h2 : (W / 20 : ℚ) > W * (1 / 10) := hcen.2.1
      linarith
    · intro hri
      have h2 : (W / 20 : ℚ) > W / 2 := hri.2
      linarith
    · show (W / 20 : ℚ) < W * (1 / 10) + 20
      linarith
    · show (19 * W / 20 : ℚ) > W * (9 / 10) - 20
      linarith

/-- Witness for C8's two concrete layouts, at page width 1000. -/
theorem C8_alignment_precedence_witness :
    detect_alignment ⟨3 * 1000 / 10, 0, 7 * 1000 / 10, 0⟩ 1000 (1000 / 2) =
      .center ∧
    detect_alignment ⟨1000 / 20, 0, 19 * 1000 / 20, 0⟩ 1000 (1000 / 2) =
      .justify :=
  ⟨C8_alignment_precedence.2.2.2.2.1 1000 0 0 (by decide),
   C8_alignment_precedence.2.2.2.2.2 1000 0 0 (by decide)⟩

/-! ### Text cleaning (`_clean_text`, `service.py`, lines 313-329)

Three sequential `re.sub` passes then `strip()`:
`[\x00-\x08\x0b\x0c\x0e-\x1f\x7f]` removed, `[^\S\n]+` collapsed to one
space, `\n{3,}` collapsed to exactly two newlines.  Each regex is a single
character class under `+`/`{3,}`, so substitution is run-collapsing, here
realised by one-pass state machines. -/

/-- The control-character class `[\x00-\x08\x0b\x0c\x0e-\x1f\x7f]`. -/
def isCtrlChar (c : Char) : Bool :=
  c.toNat ≤ 0x08 || c == '\x0b' || c == '\x0c' ||
  (0x0e ≤ c.toNat && c.toNat ≤ 0x1f) || c == '\x7f'

/-- `[^\S\n]`: whitespace other than newline. -/
def isNWS (c : Char) : Bool :=
  pyIsSpace c && c != '\n'

/-- `re.sub(r'[^\S\n]+', ' ', ...)`: each maximal run of non-newline
whitespace becomes one space.  The flag records whether the previous
character was part of such a run. -/
def collapseWS : Bool → List Char → List Char
  | _, [] => []
  | prev, c :: rest =>
    if isNWS c then
      if prev then collapseWS true rest else ' ' :: collapseWS true rest
    else c :: collapseWS false rest

/-- `re.sub(r'\n{3,}', '\n\n', ...)`: each maximal run of at least three
newlines becomes exactly two.  The counter is the number of newlines seen
in the current run. -/
def collapseNL : Nat → List Char → List Char
  | _, [] => []
  | k, c :: rest =>
    if c = '\n' then
      if 2 ≤ k then collapseNL (k + 1) rest
      else '\n' :: collapseNL (k + 1) rest
    else c :: collapseNL 0 rest

/-- `_clean_text` on the character list: strip control characters, collapse
non-newline whitespace runs, collapse newline runs of three or more, then
`strip()`. -/
def cleanTextList (l : List Char) : List Char :=
  pyStrip (collapseNL 0 (collapseWS false (l.filter (fun c => !isCtrlChar c))))

/-- `_clean_text` (`service.py`, lines 313-329). -/
def clean_text (s : String) : String :=
  String.mk (cleanTextList s.data)

/-! Auxiliary facts about the run-collapsing passes, used to settle the
claim on the cleaning pass. -/

lemma pre_to_chunk {xs l : List Char} (h : xs <+: l) : xs <:+: l := by
  rcases h with ⟨t, ht⟩
  exact ⟨[], t, by simpa using ht⟩

lemma chunk_cons {xs t : List Char} {c : Char} (h : xs <:+: t) :
    xs <:+: c :: t := by
  rcases h with ⟨s, u, hs⟩
  exact ⟨c :: s, u, by simp [hs]⟩

lemma cons_chunk_cases {xs ys : List Char} {a : Char} (h : xs <:+: a :: ys) :
    xs <+: a :: ys ∨ xs <:+: ys := by
  rcases h with ⟨s, u, hs⟩
  cases s with
  | nil => exact Or.inl ⟨u, by simpa using hs⟩
  | cons c s2 =>
    right
    rw [List.cons_append, List.cons_append] at hs
    injection hs with h1 h2
    exact ⟨s2, u, h2⟩

lemma cons_pre_cons {x y : Char} {xs ys : List Char}
    (h : (x :: xs) <+: (y :: ys)) : x = y ∧ xs <+: ys := by
  rcases h with ⟨t, ht⟩
  rw [List.cons_append] at ht
  injection ht with h1 h2
  exact ⟨h1, ⟨t, h2⟩⟩

lemma single_pre_head {b : Char} {X : List Char} (h : [b] <+: X) :
    X.head? = some b := by
  rcases h with ⟨t, ht⟩
  rw [← ht]
  rfl

lemma pre_head {b : Char} {bs X : List Char} (h : (b :: bs) <+: X) :
    X.head? = some b := by
  rcases h with ⟨t, ht⟩
  rw [← ht]
  rfl

lemma chunk_trans {xs m l : List Char} (h1 : xs <:+: m) (h2 : m <:+: l) :
    xs <:+: l := by
  rcases h1 with ⟨s1, u1, hs1⟩
  rcases h2 with ⟨s2, u2, hs2⟩
  exact ⟨s2 ++ s1, u1 ++ u2, by rw [← hs2, ← hs1]; simp⟩

lemma dropWhileLead (p : Char → Bool) :
    ∀ l : List Char, ∃ s, s ++ l.dropWhile p = l := by
  intro l
  induction l with
  | nil => exact ⟨[], rfl⟩
  | cons c t ih =>
    by_cases hc : p c = true
    · rcases ih with ⟨s, hs⟩
      exact ⟨c :: s, by simp [List.dropWhile_cons, hc, hs]⟩
    · exact ⟨[], by simp [List.dropWhile_cons, hc]⟩

lemma dropWhileHead (p : Char → Bool) :
    ∀ (l : List Char) (c : Char), (l.dropWhile p).head? = some c → p c = false := by
  intro l
  induction l with
  | nil => intro c h; simp at h
  | cons a t ih =>
    intro c h
    by_cases ha : p a = true
    · rw [List.dropWhile_cons, if_pos ha] at h
      exact ih c h
    · rw [List.dropWhile_cons, if_neg ha] at h
      injection h with h1
      rw [← h1]
      exact Bool.not_eq_true _ |>.mp ha

lemma dropWhileLen (p : Char → Bool) :
    ∀ l : List Char, (l.dropWhile p).length ≤ l.length := by
  intro l
  induction l with
  | nil => simp
  | cons a t ih =>
    by_cases ha : p a = true
    · rw [List.dropWhile_cons, if_pos ha]
      exact Nat.le_succ_of_le ih
    · rw [List.dropWhile_cons, if_neg ha]

lemma pyStrip_chunk (l : List Char) : pyStrip l <:+: l := by
  obtain ⟨s, hs⟩ := dropWhileLead pyIsSpace l
  obtain ⟨s2, hs2⟩ := dropWhileLead pyIsSpace (l.dropWhile pyIsSpace).reverse
  refine ⟨s, s2.reverse, ?_⟩
  have hd : ((l.dropWhile pyIsSpace).reverse.dropWhile pyIsSpace).reverse ++
      s2.reverse = l.dropWhile pyIsSpace := by
    have := congrArg List.reverse hs2
    simpa using this
  calc s ++ pyStrip l ++ s2.reverse
      = s ++ (pyStrip l ++ s2.reverse) := by simp
    _ = s ++ l.dropWhile pyIsSpace := by
        rw [show pyStrip l ++ s2.reverse = l.dropWhile pyIsSpace from hd]
    _ = l := hs

lemma pyStrip_mem {c : Char} {l : List Char} (h : c ∈ pyStrip l) : c ∈ l := by
  rcases pyStrip_chunk l with ⟨s, u, hs⟩
  rw [← hs]
  simp [h]

lemma collapseNL_mem :
    ∀ (t : List Char) (k : Nat) (c : Char), c ∈ collapseNL k t → c ∈ t := by
  intro t
  induction t with
  | nil => intro k c h; simp [collapseNL] at h
  | cons a t ih =>
    intro k c h
    unfold collapseNL at h
    by_cases ha : a = '\n'
    · rw [if_pos ha] at h
      by_cases hk : 2 ≤ k
      · rw [if_pos hk] at h
        exact List.mem_cons_of_mem a (ih _ c h)
      · rw [if_neg hk] at h
        rcases List.mem_cons.mp h with h1 | h2
        · rw [h1, ha]; exact List.mem_cons_self _ _
        · exact List.mem_cons_of_mem a (ih _ c h2)
    · rw [if_neg ha] at h
      rcases List.mem_cons.mp h with h1 | h2
      · rw [h1]; exact List.mem_cons_self _ _
      · exact List.mem_cons_of_mem a (ih _ c h2)

lemma collapseWS_mem :
    ∀ (t : List Char) (prev : Bool) (c : Char), c ∈ collapseWS prev t →
      c = ' ' ∨ (c ∈ t ∧ isNWS c = false) := by
  intro t
  induction t with
  | nil => intro prev c h; simp [collapseWS] at h
  | cons a t ih =>
    intro prev c h
    unfold collapseWS at h
    by_cases ha : isNWS a = true
    · rw [if_pos ha] at h
      cases prev with
      | true =>
        simp only [if_pos] at h
        rcases ih true c h with h1 | ⟨h2, h3⟩
        · exact Or.inl h1
        · exact Or.inr ⟨List.mem_cons_of_mem a h2, h3⟩
      | false =>
        simp only [Bool.false_eq_true, if_neg] at h
        rcases List.mem_cons.mp h with h1 | h2
        · exact Or.inl h1
        · rcases ih true c h2 with h1 | ⟨h3, h4⟩
          · exact Or.inl h1
          · exact Or.inr ⟨List.mem_cons_of_mem a h3, h4⟩
    · rw [if_neg ha] at h
      rcases List.mem_cons.mp h with h1 | h2
      · refine Or.inr ⟨by rw [h1]; exact List.mem_cons_self _ _, ?_⟩
        rw [h1]
        exact Bool.not_eq_true _ |>.mp ha
      · rcases ih false c h2 with h1 | ⟨h3, h4⟩
        · exact Or.inl h1
        · exact Or.inr ⟨List.mem_cons_of_mem a h3, h4⟩

lemma collapseWS_true_head :
    ∀ (t : List Char) (c : Char), (collapseWS true t).head? = some c →
      isNWS c = false := by
  intro t
  induction t with
  | nil => intro c h; simp [collapseWS] at h
  | cons a t ih =>
    intro c h
    unfold collapseWS at h
    by_cases ha : isNWS a = true
    · rw [if_pos ha, if_pos rfl] at h
      exact ih c h
    · rw [if_neg ha] at h
      injection h with h1
      rw [← h1]
      exact Bool.not_eq_true _ |>.mp ha

lemma collapseNL_zero_head :
    ∀ t : List Char, (collapseNL 0 t).head? = t.head? := by
  intro t
  cases t with
  | nil => rfl
  | cons a t =>
    unfold collapseNL
    by_cases ha : a = '\n'
    · rw [if_pos ha, if_neg (by omega)]
      rw [ha]
      rfl
    · rw [if_neg ha]
      rfl

lemma collapseNL_ge2 :
    ∀ (t : List Char) (k : Nat), 2 ≤ k → collapseNL k t = collapseNL 2 t := by
  intro t
  induction t with
  | nil => intro k hk; rfl
  | cons a t ih =>
    intro k hk
    unfold collapseNL
    by_cases ha : a = '\n'
    · rw [if_pos ha, if_pos ha, if_pos hk, if_pos (by omega)]
      rw [ih (k + 1) (by omega), ih 3 (by omega)]
    · rw [if_neg ha, if_neg ha]

lemma collapseNL_cons (k : Nat) (c : Char) (t : List Char) :
    collapseNL k (c :: t) =
      if c = '\n' then
        (if 2 ≤ k then collapseNL (k + 1) t else '\n' :: collapseNL (k + 1) t)
      else c :: collapseNL 0 t := by
  rfl

lemma collapseNL_two_eq :
    ∀ t : List Char,
      collapseNL 2 t = collapseNL 0 (t.dropWhile (fun c => c == '\n')) := by
  intro t
  induction t with
  | nil => rfl
  | cons a t ih =>
    by_cases ha : a = '\n'
    · rw [collapseNL_cons, if_pos ha, if_pos (by omega),
        collapseNL_ge2 t 3 (by omega), ih,
        List.dropWhile_cons, if_pos (by simp [ha])]
    · rw [collapseNL_cons, if_neg ha, List.dropWhile_cons,
        if_neg (by simp [ha]), collapseNL_cons, if_neg ha]

/-- An adjacent pair in the output of the newline-collapsing pass was
adjacent in its input, unless its left component is a newline (the pass
only deletes newlines, and only right after two emitted newlines). -/
lemma collapseNL_pair :
    ∀ (t : List Char) (k : Nat) (a b : Char),
      [a, b] <:+: collapseNL k t → [a, b] <:+: t ∨ a = '\n' := by
  intro t
  induction t with
  | nil => intro k a b h; rcases h with ⟨s, u, hs⟩; simp [collapseNL] at hs
  | cons c t ih =>
    intro k a b h
    unfold collapseNL at h
    by_cases hc : c = '\n'
    · rw [if_pos hc] at h
      by_cases hk : 2 ≤ k
      · rw [if_pos hk] at h
        rcases ih _ a b h with h1 | h2
        · exact Or.inl (chunk_cons h1)
        · exact Or.inr h2
      · rw [if_neg hk] at h
        rcases cons_chunk_cases h with hp | h1
        · exact Or.inr (cons_pre_cons hp).1
        · rcases ih _ a b h1 with h2 | h3
          · exact Or.inl (chunk_cons h2)
          · exact Or.inr h3
    · rw [if_neg hc] at h
      rcases cons_chunk_cases h with hp | h1
      · obtain ⟨hac, hbp⟩ := cons_pre_cons hp
        have hb : t.head? = some b := by
          rw [← collapseNL_zero_head t]
          exact single_pre_head hbp
        cases t with
        | nil => simp at hb
        | cons d t2 =>
          injection hb with hb1
          refine Or.inl (pre_to_chunk ?_)
          rw [hac, hb1]
          exact ⟨t2, rfl⟩
      · rcases ih _ a b h1 with h2 | h3
        · exact Or.inl (chunk_cons h2)
        · exact Or.inr h3

/-- The newline-collapsing pass never leaves three consecutive newlines. -/
theorem collapseNL_noTriple :
    ∀ t : List Char, ¬ (['\n', '\n', '\n'] <:+: collapseNL 0 t)
  | [] => by
    intro h
    rcases h with ⟨s, u, hs⟩
    simp [collapseNL] at hs
  | c :: t => by
    by_cases hc : c = '\n'
    · subst hc
      cases t with
      | nil =>
        intro h
        have hlen := h.length_le
        simp [collapseNL] at hlen
      | cons d t2 =>
        by_cases hd : d = '\n'
        · subst hd
          have hout : collapseNL 0 ('\n' :: '\n' :: t2) =
              '\n' :: '\n' :: collapseNL 0 (t2.dropWhile (fun x => x == '\n')) := by
            rw [collapseNL_cons, if_pos rfl, if_neg (by omega),
              collapseNL_cons, if_pos rfl, if_neg (by omega), collapseNL_two_eq]
          intro h
          rw [hout] at h
          have hhead : ∀ x : Char,
              (collapseNL 0 (t2.dropWhile (fun y => y == '\n'))).head? = some x →
                x ≠ '\n' := by
            intro x hx
            rw [collapseNL_zero_head] at hx
            have := dropWhileHead (fun y => y == '\n') _ x hx
            simpa using this
          rcases cons_chunk_cases h with hp | h1
          · obtain ⟨_, hp2⟩ := cons_pre_cons hp
            obtain ⟨_, hp3⟩ := cons_pre_cons hp2
            exact hhead '\n' (single_pre_head hp3) rfl
          · rcases cons_chunk_cases h1 with hp | h2
            · obtain ⟨_, hp2⟩ := cons_pre_cons hp
              exact hhead '\n' (pre_head hp2) rfl
            · exact collapseNL_noTriple (t2.dropWhile (fun x => x == '\n')) h2
        · have hout : collapseNL 0 ('\n' :: d :: t2) =
              '\n' :: d :: collapseNL 0 t2 := by
            rw [collapseNL_cons, if_pos rfl, if_neg (by omega),
              collapseNL_cons, if_neg hd]
          intro h
          rw [hout] at h
          rcases cons_chunk_cases h with hp | h1
          · obtain ⟨_, hp2⟩ := cons_pre_cons hp
            exact hd (cons_pre_cons hp2).1.symm
          · rcases cons_chunk_cases h1 with hp | h2
            · exact hd (cons_pre_cons hp).1.symm
            · exact collapseNL_noTriple t2 h2
    · have hout : collapseNL 0 (c :: t) = c :: collapseNL 0 t := by
        rw [collapseNL_cons, if_neg hc]
      intro h
      rw [hout] at h
      rcases cons_chunk_cases h with hp | h1
      · exact hc (cons_pre_cons hp).1.symm
      · exact collapseNL_noTriple t h1
termination_by t => t.length
decreasing_by
  · exact Nat.lt_of_le_of_lt (dropWhileLen _ _)
      (by simp only [List.length_cons]; omega)
  · simp only [List.length_cons]
    omega
  · simp only [List.length_cons]
    omega

/-- An adjacent pair in the output of the whitespace-collapsing pass never
consists of two non-newline whitespace characters. -/
lemma collapseWS_pair :
    ∀ (t : List Char) (prev : Bool) (a b : Char),
      [a, b] <:+: collapseWS prev t →
        ¬(isNWS a = true ∧ isNWS b = true) := by
  intro t
  induction t with
  | nil =>
    intro prev a b h
    rcases h with ⟨s, u, hs⟩
    simp [collapseWS] at hs
  | cons c t ih =>
    intro prev a b h
    unfold collapseWS at h
    by_cases hc : isNWS c = true
    · rw [if_pos hc] at h
      cases prev with
      | true =>
        rw [if_pos rfl] at h
        exact ih true a b h
      | false =>
        rw [if_neg (by simp)] at h
        rcases cons_chunk_cases h with hp | h1
        · obtain ⟨ha, hpb⟩ := cons_pre_cons hp
          rintro ⟨hha, hhb⟩
          have hbn := collapseWS_true_head t b (single_pre_head hpb)
          rw [hbn] at hhb
          exact Bool.noConfusion hhb
        · exact ih true a b h1
    · rw [if_neg hc] at h
      rcases cons_chunk_cases h with hp | h1
      · obtain ⟨ha, _⟩ := cons_pre_cons hp
        rintro ⟨hha, _⟩
        rw [ha] at hha
        exact hc hha
      · exact ih false a b h1

/-- C10, counterexample: on the claim's own example input (a hyphenated
line break followed by a run of four newlines), `_clean_text` leaves
`"exam-\nple"` untouched — the output does not contain `"example"`; the
pass performs no de-hyphenation. -/
theorem C10_counterexample_no_dehyphenation :
    cleanTextList "exam-\nple\n\n\n\nnext".data = "exam-\nple\n\nnext".data ∧
    ¬ ("example".data <:+: cleanTextList "exam-\nple\n\n\n\nnext".data) := by
  exact ⟨by decide, by decide⟩

/-- C10 as amended: the cleaning pass does not rejoin hyphenated line
breaks (`"exam-\nple"` comes through verbatim, and with a four-newline run
collapsed to a single blank line); in general its output contains no
control character of the stripped class, never three consecutive newlines
(so at most one blank line separates paragraphs), and every run of
non-newline whitespace is a single `' '` (each such character is a space
and no two are adjacent). -/
theorem C10_amended_cleaning :
    cleanTextList "exam-\nple\n\n\n\nnext".data = "exam-\nple\n\nnext".data ∧
    (∀ (l : List Char) (c : Char), c ∈ cleanTextList l → isCtrlChar c = false) ∧
    (∀ l : List Char, ¬ (['\n', '\n', '\n'] <:+: cleanTextList l)) ∧
    (∀ (l : List Char) (c : Char), c ∈ cleanTextList l → isNWS c = true → c = ' ') ∧
    (∀ (l : List Char) (a b : Char), [a, b] <:+: cleanTextList l →
      ¬(isNWS a = true ∧ isNWS b = true)) := by
  refine ⟨by decide, ?_, ?_, ?_, ?_⟩
  · intro l c hc
    have h1 := pyStrip_mem hc
    have h2 := collapseNL_mem _ _ _ h1
    rcases collapseWS_mem _ _ _ h2 with h3 | ⟨h3, _⟩
    · rw [h3]; decide
    · simpa using (List.mem_filter.mp h3).2
  · intro l h
    exact collapseNL_noTriple _ (chunk_trans h (pyStrip_chunk _))
  · intro l c hc hnws
    have h1 := pyStrip_mem hc
    have h2 := collapseNL_mem _ _ _ h1
    rcases collapseWS_mem _ _ _ h2 with h3 | ⟨_, h4⟩
    · exact h3
    · rw [hnws] at h4
      exact Bool.noConfusion h4
  · intro l a b hpair
    have h1 := chunk_trans hpair (pyStrip_chunk _)
    rcases collapseNL_pair _ _ a b h1 with h2 | h2
    · exact collapseWS_pair _ _ a b h2
    · rintro ⟨ha, _⟩
      rw [h2] at ha
      exact absurd ha (by decide)

/-- Witness for C10's quantified parts at a concrete input: the character
`'a'` of the cleaned text `"a"` is not a control character. -/
theorem C10_amended_cleaning_witness :
    isCtrlChar 'a' = false :=
  C10_amended_cleaning.2.1 "a".data 'a' (by decide)

/-! ### Block renderer (`_process_text_block`, `service.py`, lines 181-268) -/

/-- A span as read from the page dictionary: `span["text"]`,
`span.get("size", 12)`, `span.get("flags", 0)`. -/
structure Span where
  text : List Char
  size : ℚ
  flags : Nat
deriving DecidableEq

/-- A line: its spans. -/
structure Line where
  spans : List Span
deriving DecidableEq

/-- A text block (`block["type"] == 0`): lines and bounding box. -/
structure TextBlock where
  lines : List Line
  bbox : BBox
deriving DecidableEq

/-- The concatenated span texts of one line (`line_text`). -/
def lineText (ln : Line) : List Char :=
  (ln.spans.map Span.text).flatten

/-- All spans of the block in order (the doubly nested loop's visit
order). -/
def blockSpans (b : TextBlock) : List Span :=
  (b.lines.map Line.spans).flatten

/-- `block_text_parts`: the per-line texts whose `strip()` is nonempty. -/
def blockTextParts (b : TextBlock) : List (List Char) :=
  (b.lines.map lineText).filter (fun t => !(pyStrip t).isEmpty)

/-- `font_sizes`: every span's size, including spans on blank lines. -/
def fontSizes (b : TextBlock) : List ℚ :=
  (blockSpans b).map Span.size

/-- `is_bold`: some span has the bold bit `16` set (`font_flags & 16`). -/
def blockHasBold (b : TextBlock) : Bool :=
  (blockSpans b).any (fun s => s.flags &&& 16 != 0)

/-- `full_text` after the cleaning pass: the parts joined with `"\n"` and
run through `_clean_text`. -/
def blockFullText (b : TextBlock) : List Char :=
  cleanTextList (List.intercalate ['\n'] (blockTextParts b))

/-- `avg_font_size = sum(font_sizes) / len(font_sizes) if font_sizes
else 12`. -/
def avgFontSize (b : TextBlock) : ℚ :=
  if (fontSizes b).isEmpty then 12
  else (fontSizes b).sum / ((fontSizes b).length : ℚ)

/-- Python `str.isupper()` (ASCII fragment): at least one letter and no
lowercase letter. -/
def pyIsUpper (l : List Char) : Bool :=
  l.any isAsciiLetter && l.all (fun c => !isAsciiLetter c || c.isUpper)

/-- Python `str.replace(target, repl)` for a single-character target. -/
def replaceChar (target : Char) (repl : List Char) (l : List Char) : List Char :=
  l.flatMap (fun c => if c = target then repl else [c])

/-- The three sequential escapes `&`→`&amp;`, `<`→`&lt;`, `>`→`&gt;`, in
source order. -/
def escapeHtml (l : List Char) : List Char :=
  replaceChar '>' "&gt;".data (replaceChar '<' "&lt;".data
    (replaceChar '&' "&amp;".data l))

/-- `escaped_text.replace("\n", "<br>")`. -/
def newlinesToBreaks (l : List Char) : List Char :=
  replaceChar '\n' "<br>".data l

/-- The single inline style the renderer produces for each alignment. -/
def alignStyle : Alignment → List Char
  | .center => "text-align: center".data
  | .right => "text-align: right".data
  | .justify => "text-align: justify".data
  | .left => "text-align: left".data

/-- The `is_title` test (`service.py`, lines 234-238). -/
def isTitleBool (ft : List Char) (avg : ℚ) (al : Alignment) : Bool :=
  (pyIsUpper ft && decide (ft.length < 100)) ||
  (decide (avg > 14) && decide (ft.length < 150)) ||
  (decide (al = .center) && decide (ft.length < 100))

/-- `_process_text_block` (`service.py`, lines 181-268): guards for empty
lines / no nonblank parts / blank cleaned text, then title/bold/plain
emission with the alignment style.  The `style_parts` list always holds
exactly one entry, inlined here as `alignStyle`. -/
def process_text_block (block : TextBlock) (page_width page_center : ℚ) :
    List Char :=
  if block.lines.isEmpty then []
  else if (blockTextParts block).isEmpty then []
  else if (pyStrip (blockFullText block)).isEmpty then []
  else if isTitleBool (blockFullText block) (avgFontSize block)
      (detect_alignment block.bbox page_width page_center) then
    if pyIsUpper (blockFullText block) then
      "<h2 style=\"".data ++
        alignStyle (detect_alignment block.bbox page_width page_center) ++
        "\">".data ++ newlinesToBreaks (escapeHtml (blockFullText block)) ++
        "</h2>".data
    else
      "<h3 style=\"".data ++
        alignStyle (detect_alignment block.bbox page_width page_center) ++
        "\">".data ++ newlinesToBreaks (escapeHtml (blockFullText block)) ++
        "</h3>".data
  else if blockHasBold block then
    "<p style=\"".data ++
      alignStyle (detect_alignment block.bbox page_width page_center) ++
      "\"><strong>".data ++ newlinesToBreaks (escapeHtml (blockFullText block)) ++
      "</strong></p>".data
  else
    "<p style=\"".data ++
      alignStyle (detect_alignment block.bbox page_width page_center) ++
      "\">".data ++ newlinesToBreaks (escapeHtml (blockFullText block)) ++
      "</p>".data

/-- The three block classes named by the claim. -/
inductive BlockClass where
  | title
  | boldPara
  | plainPara
deriving DecidableEq

/-- Claim C9's classification policy, stated over propositions: title iff
(all-uppercase and length < 100) or (average span font size > 14 and
length < 150) or (alignment is center and length < 100); bold paragraph
iff some span is bold and it is not a title; otherwise plain. -/
def classifyBlockSpec (ft : List Char) (avg : ℚ) (bold : Bool)
    (al : Alignment) : BlockClass :=
  if (pyIsUpper ft = true ∧ ft.length < 100) ∨ (avg > 14 ∧ ft.length < 150) ∨
     (al = .center ∧ ft.length < 100) then .title
  else if bold = true then .boldPara
  else .plainPara

/-- Claim C9's rendering: escape `&`, `<`, `>`, convert newlines to
`<br>`, and wrap in `<h2>`/`<h3>`/`<p><strong>`/`<p>` with the inline
`text-align` style of the detected alignment. -/
def renderBlockSpec (cls : BlockClass) (ft : List Char) (al : Alignment) :
    List Char :=
  match cls with
  | .title =>
    if pyIsUpper ft then
      "<h2 style=\"".data ++ alignStyle al ++ "\">".data ++
        newlinesToBreaks (escapeHtml ft) ++ "</h2>".data
    else
      "<h3 style=\"".data ++ alignStyle al ++ "\">".data ++
        newlinesToBreaks (escapeHtml ft) ++ "</h3>".data
  | .boldPara =>
    "<p style=\"".data ++ alignStyle al ++ "\"><strong>".data ++
      newlinesToBreaks (escapeHtml ft) ++ "</strong></p>".data
  | .plainPara =>
    "<p style=\"".data ++ alignStyle al ++ "\">".data ++
      newlinesToBreaks (escapeHtml ft) ++ "</p>".data

lemma dropWhile_fix (p : Char → Bool) :
    ∀ l : List Char, (l.dropWhile p).dropWhile p = l.dropWhile p := by
  intro l
  induction l with
  | nil => rfl
  | cons a t ih =>
    by_cases ha : p a = true
    · rw [List.dropWhile_cons, if_pos ha]
      exact ih
    · rw [List.dropWhile_cons, if_neg ha, List.dropWhile_cons, if_neg ha]

lemma dropTrailing_pre (m : List Char) : ∃ u, dropTrailingSpace m ++ u = m := by
  obtain ⟨s, hs⟩ := dropWhileLead pyIsSpace m.reverse
  refine ⟨s.reverse, ?_⟩
  have h := congrArg List.reverse hs
  simpa [dropTrailingSpace] using h

lemma dropTrailing_fix (m : List Char) :
    dropTrailingSpace (dropTrailingSpace m) = dropTrailingSpace m := by
  unfold dropTrailingSpace
  rw [List.reverse_reverse, dropWhile_fix]

lemma pyStrip_idem (l : List Char) : pyStrip (pyStrip l) = pyStrip l := by
  unfold pyStrip
  cases hdt : dropTrailingSpace (l.dropWhile pyIsSpace) with
  | nil => rfl
  | cons c rest =>
    have hc : pyIsSpace c = false := by
      obtain ⟨u, hu⟩ := dropTrailing_pre (l.dropWhile pyIsSpace)
      rw [hdt] at hu
      apply dropWhileHead pyIsSpace l c
      rw [← hu]
      rfl
    rw [List.dropWhile_cons, if_neg (by simp [hc]), ← hdt, dropTrailing_fix]

lemma pyStrip_cleanText (l : List Char) :
    pyStrip (cleanTextList l) = cleanTextList l := by
  unfold cleanTextList
  exact pyStrip_idem _

/-- C9: whenever the cleaned, newline-joined block text is nonempty, the
renderer's output is exactly the claim's rendering of the claim's
classification — title iff (all-caps ∧ len < 100) ∨ (avg size > 14 ∧
len < 150) ∨ (centered ∧ len < 100), `<h2>` for all-caps titles, `<h3>`
otherwise, `<p><strong>` for non-title blocks with a bold span, `<p>` for
the rest, all with the escaped text, `<br>` line breaks and the
`text-align` style of the detected alignment. -/
theorem C9_block_renderer (block : TextBlock) (W C : ℚ)
    (hne : blockFullText block ≠ []) :
    process_text_block block W C =
      renderBlockSpec
        (classifyBlockSpec (blockFullText block) (avgFontSize block)
          (blockHasBold block) (detect_alignment block.bbox W C))
        (blockFullText block) (detect_alignment block.bbox W C) := by
  have g1 : ¬(block.lines.isEmpty = true) := by
    intro h
    apply hne
    rw [List.isEmpty_iff] at h
    show cleanTextList (List.intercalate ['\n'] (blockTextParts block)) = []
    rw [show blockTextParts block = [] by simp [blockTextParts, h]]
    rfl
  have g2 : ¬((blockTextParts block).isEmpty = true) := by
    intro h
    apply hne
    show cleanTextList (List.intercalate ['\n'] (blockTextParts block)) = []
    rw [List.isEmpty_iff.mp h]
    rfl
  have g3 : ¬((pyStrip (blockFullText block)).isEmpty = true) := by
    have heq : pyStrip (blockFullText block) = blockFullText block :=
      pyStrip_cleanText (List.intercalate ['\n'] (blockTextParts block))
    rw [heq]
    intro h
    exact hne (List.isEmpty_iff.mp h)
  have htitle : isTitleBool (blockFullText block) (avgFontSize block)
      (detect_alignment block.bbox W C) = true ↔
      ((pyIsUpper (blockFullText block) = true ∧
          (blockFullText block).length < 100) ∨
        (avgFontSize block > 14 ∧ (blockFullText block).length < 150) ∨
        (detect_alignment block.bbox W C = .center ∧
          (blockFullText block).length < 100)) := by
    simp only [isTitleBool, Bool.or_eq_true, Bool.and_eq_true,
      decide_eq_true_eq, gt_iff_lt]
    exact or_assoc
  unfold process_text_block classifyBlockSpec renderBlockSpec
  rw [if_neg g1, if_neg g2, if_neg g3]
  by_cases ht : (pyIsUpper (blockFullText block) = true ∧
      (blockFullText block).length < 100) ∨
    (avgFontSize block > 14 ∧ (blockFullText block).length < 150) ∨
    (detect_alignment block.bbox W C = .center ∧
      (blockFullText block).length < 100)
  · rw [if_pos (htitle.mpr ht), if_pos ht]
  · rw [if_neg (fun hb => ht (htitle.mp hb)), if_neg ht]
    by_cases hb : blockHasBold block = true
    · rw [if_pos hb, if_pos hb]
    · rw [if_neg hb, if_neg hb]

/-- A concrete one-line, one-span block used as the C9 witness. -/
def helloBlock : TextBlock :=
  { lines := [{ spans := [{ text := "HELLO".data, size := 12, flags := 0 }] }]
    bbox := { x0 := 0, y0 := 0, x1 := 10, y1 := 10 } }

/-- Witness for C9 on a concrete block. -/
theorem C9_block_renderer_witness :
    process_text_block helloBlock 1000 500 =
      renderBlockSpec
        (classifyBlockSpec (blockFullText helloBlock) (avgFontSize helloBlock)
          (blockHasBold helloBlock) (detect_alignment helloBlock.bbox 1000 500))
        (blockFullText helloBlock) (detect_alignment helloBlock.bbox 1000 500) :=
  C9_block_renderer helloBlock 1000 500 (by decide)

end ReadZen
